import Mathlib

/- Shallow embedding of textnet/bootstrap_network.py.

Numeric model: numpy float64 values are modelled as exact rationals, extended
with inf and NaN markers exactly where the source manufactures them
(np.fill_diagonal(dm, np.inf) and dm[~potential_neighbors] = np.nan).
External collaborators are modelled explicitly: the metric is an arbitrary
function on sub-sampled rows (sklearn pairwise_distances evaluates it on every
row pair), the global numpy PRNG is a deterministic generator state and the
pyprind progress sink is a tick counter, both threaded through a World record.
Matrices are total functions over natural-number indices together with an
explicit size; entries outside the size are never written and keep their
initial value. -/

/-- Extended float value of a distance-matrix entry: a finite rational,
positive infinity, or NaN. -/
inductive EVal where
  | val (q : ℚ)
  | inf
  | nan
deriving DecidableEq, Repr

/-- Strict comparison used by argmin scans; NaN never occurs among compared
values there because np.nanargmin replaces NaN by inf first. -/
def EVal.lt : EVal → EVal → Bool
  | .val a, .val b => decide (a < b)
  | .val _, .inf => true
  | _, _ => false

/-- The NaN-to-inf replacement np.nanargmin applies before taking argmin. -/
def replaceNan (x : EVal) : EVal :=
  if x = .nan then .inf else x

/-- First index of the minimum of the NaN-replaced row, scanning left to right
(np.argmin tie-breaking: first occurrence wins). -/
def argmin_from (row : ℕ → EVal) : ℕ → List ℕ → ℕ
  | best, [] => best
  | best, j :: l =>
    argmin_from row (if (replaceNan (row j)).lt (replaceNan (row best)) then j else best) l

/-- Model of np.nanargmin over positions [0, nS): NaN entries are replaced by
inf and the first argmin position of the replaced row is returned. numpy raises
ValueError when the whole row is NaN or empty; that is modelled as none
(unreachable inside bootstrap_neighbors because the diagonal is inf). -/
def nanargmin (nS : ℕ) (row : ℕ → EVal) : Option ℕ :=
  match List.range nS with
  | [] => none
  | j0 :: rest =>
    if (List.range nS).all fun j => decide (row j = .nan) then none
    else some (argmin_from row j0 rest)

/-- Model of np.nanmin over positions [0, nS): minimum ignoring NaN entries,
NaN when every entry is NaN. -/
def nanmin (nS : ℕ) (row : ℕ → EVal) : EVal :=
  (List.range nS).foldl
    (fun acc j =>
      if row j = .nan then acc
      else if acc = .nan then row j
      else if (row j).lt acc then row j else acc) .nan

/-- Membership test of all_argmin: np.abs(array - nanmin) < 0.001 under IEEE
semantics, where any comparison involving NaN is false and inf - inf is NaN. -/
def nearMin (x m : EVal) : Bool :=
  match x, m with
  | .val a, .val b => decide (|a - b| < 1 / 1000)
  | _, _ => false

/-- Model of sklearn pairwise_distances(A, Y=B, metric): entry (i, j) is the
metric applied to row i of A and row j of B. -/
def pairwise_distances {α : Type} (metric : α → α → ℚ) (A B : ℕ → α) : ℕ → ℕ → ℚ :=
  fun i j => metric (A i) (B j)

/-- Year bucket of the grouped computation: time_index.year // groupby * groupby
(Python floor division). -/
def bucket (g y : ℤ) : ℤ :=
  y.fdiv g * g

/-- One pass of the loop body of time_grouped_pairwise_distances for bucket
value v: dm[np.ix_(X_indices, Y_indices)] = pairwise_distances(X[X_indices],
Y=X[Y_indices]) with X_indices the rows in bucket v and Y_indices the rows in
buckets at most v, guarded by X_indices.sum() > 0 and Y_indices.sum() > 0. -/
def tg_write {α : Type} (nS : ℕ) (metric : α → α → ℚ) (rows : ℕ → α) (yr : ℕ → ℤ)
    (g : ℤ) (dm : ℕ → ℕ → ℚ) (v : ℤ) : ℕ → ℕ → ℚ :=
  if ((List.range nS).any fun i => decide (bucket g (yr i) = v)) &&
     ((List.range nS).any fun j => decide (bucket g (yr j) ≤ v)) then
    fun i j =>
      if i < nS ∧ bucket g (yr i) = v ∧ j < nS ∧ bucket g (yr j) ≤ v then
        pairwise_distances metric rows rows i j
      else dm i j
  else dm

/-- Model of time_grouped_pairwise_distances: start from np.zeros, then for
every distinct year bucket (np.unique: sorted and deduplicated) write the
causal sub-block. -/
def time_grouped_pairwise_distances {α : Type} (nS : ℕ) (metric : α → α → ℚ)
    (rows : ℕ → α) (yr : ℕ → ℤ) (g : ℤ) : ℕ → ℕ → ℚ :=
  (List.insertionSort (· ≤ ·) (((List.range nS).map fun i => bucket g (yr i)).dedup)).foldl
    (tg_write nS metric rows yr g) fun _ _ => 0

/-- Ambient mutable state seen by bootstrap_neighbors: the global numpy PRNG
(modelled as a deterministic mixed congruential generator state) and the
pyprind progress sink (a tick counter). -/
structure World where
  rng : ℕ
  progress : ℕ
deriving DecidableEq, Repr

/-- One step of the modelled global PRNG. -/
def rand_step (s : ℕ) : ℕ :=
  (6364136223846793005 * s + 1442695040888963407) % 2 ^ 64

/-- Model of np.random.randint(bound, size=k): k draws in [0, bound), advancing
the PRNG state. numpy raises ValueError for bound = 0 before touching the
generator; the iteration model checks that case before this call, so bound is
always positive on reachable paths. -/
def randint_list (bound : ℕ) : ℕ → ℕ → List ℕ × ℕ
  | 0, s => ([], s)
  | k + 1, s =>
    let s1 := rand_step s
    let rest := randint_list bound k s1
    ((s1 % bound) :: rest.1, rest.2)

/-- Distance matrix after np.fill_diagonal(dm, np.inf) and, when a time index
is supplied, dm[~potential_neighbors] = np.nan at every pair with
time(j) > time(i). The diagonal is never masked since time(i) <= time(i). -/
def masked_dm (dm : ℕ → ℕ → ℚ) (time_index : Option (ℕ → ℤ)) : ℕ → ℕ → EVal :=
  fun i j =>
    if i = j then .inf
    else
      match time_index with
      | some t => if t i < t j then .nan else .val (dm i j)
      | none => .val (dm i j)

/-- Tally update of one iteration: default mode increments, for every row i,
the cell at np.nanargmin of that row; all-min mode increments every cell whose
entry is within 0.001 of its row nanmin. -/
def tally_update (nS : ℕ) (all_min : Bool) (dmE : ℕ → ℕ → EVal)
    (tally : ℕ → ℕ → ℕ) : ℕ → ℕ → ℕ :=
  if all_min then
    fun i j =>
      tally i j +
        if i < nS ∧ j < nS ∧ nearMin (dmE i j) (nanmin nS (dmE i)) = true then 1 else 0
  else
    fun i j =>
      tally i j + if i < nS ∧ nanargmin nS (dmE i) = some j then 1 else 0

/-- Python exception kinds raised along the modelled paths. -/
inductive PyError where
  | typeError
  | valueError
deriving DecidableEq, Repr

/-- Input validation performed inside dist_fn: sklearn pairwise_distances runs
check_array on its arguments, requiring at least one sample and one feature,
and raises ValueError otherwise. In plain mode the full sub-sampled matrix is
checked, so a zero-row or zero-column input raises; in grouped mode only the
guarded, nonempty per-bucket blocks reach sklearn, so a zero-row input makes no
call at all and only a zero-column sub-sample raises. -/
def dist_fn_raises (grouped_pairwise : Bool) (nS sample_size : ℕ) : Bool :=
  if grouped_pairwise then decide (0 < nS) && decide (sample_size = 0)
  else decide (nS = 0) || decide (sample_size = 0)

/-- One bootstrap iteration. A previously raised exception aborts the run (the
loop body never executes again). Otherwise: np.random.randint itself raises
ValueError when n_features = 0, before advancing the generator; then the
sample_size random feature columns are drawn (with replacement), the
column-sub-sampled rows are formed, and the distance matrix is computed,
raising sklearn ValueError on a degenerate shape after the draw advanced the
generator but before the progress tick. On the normal path the diagonal is
forced to inf, acausal pairs are masked to NaN, selections are tallied, and
the progress sink ticks. Grouped mode with time_index=None raises in the
source when converting None to a DatetimeIndex; no claim exercises that
combination, and the model substitutes a constant index there. -/
def bootstrap_iteration (nS nF : ℕ) (X : ℕ → ℕ → ℚ) (time_index : Option (ℕ → ℤ))
    (year : ℤ → ℤ) (sample_size : ℕ) (metric : List ℚ → List ℚ → ℚ)
    (all_min grouped_pairwise : Bool) (groupby : ℤ)
    (st : Except PyError (ℕ → ℕ → ℕ) × World) : Except PyError (ℕ → ℕ → ℕ) × World :=
  match st.1 with
  | .error e => (.error e, st.2)
  | .ok tally =>
    if nF = 0 then (.error .valueError, st.2)
    else
      let draw := randint_list nF sample_size st.2.rng
      if dist_fn_raises grouped_pairwise nS sample_size then
        (.error .valueError, ⟨draw.2, st.2.progress⟩)
      else
        let sub := fun i => draw.1.map fun c => X i c
        let dm :=
          if grouped_pairwise then
            time_grouped_pairwise_distances nS metric sub
              (fun i => year ((time_index.getD fun _ => 0) i)) groupby
          else
            pairwise_distances metric sub sub
        let dmE := masked_dm dm time_index
        (.ok (tally_update nS all_min dmE tally), ⟨draw.2, st.2.progress + 1⟩)

/-- Model of bootstrap_neighbors. The sigma and return_dist parameters are
accepted and, exactly as in the source, never used; n_jobs only splits the
distance computation and does not influence values. Returns the frequency
matrix (tally divided by n_iter) when no iteration raised, the propagated
exception otherwise, together with the final world. -/
def bootstrap_neighbors (nS nF : ℕ) (X : ℕ → ℕ → ℚ) (time_index : Option (ℕ → ℤ))
    (year : ℤ → ℤ) (sigma sample_prop : ℚ) (n_iter : ℕ)
    (metric : List ℚ → List ℚ → ℚ) (return_dist : Bool) (n_jobs : ℕ)
    (all_min grouped_pairwise : Bool) (groupby : ℤ) (w : World) :
    Except PyError (ℕ → ℕ → ℚ) × World :=
  let sample_size := (⌊(nF : ℚ) * sample_prop⌋).toNat
  let res :=
    (bootstrap_iteration nS nF X time_index year sample_size metric all_min
      grouped_pairwise groupby)^[n_iter] (.ok fun _ _ => 0, w)
  (res.1.map fun tally i j => (tally i j : ℚ) / (n_iter : ℚ), res.2)

/-- True when a run returned normally. -/
def run_is_ok {β : Type} : Except PyError β → Bool
  | .ok _ => true
  | .error _ => false

/-- Entry (i, j) of a returned frequency matrix, 0 when the run raised. -/
def freq_entry (r : Except PyError (ℕ → ℕ → ℚ)) (i j : ℕ) : ℚ :=
  match r with
  | .ok F => F i j
  | .error _ => 0

/-- Directed graph model of nx.DiGraph: node set and edge set. Per-node date
attributes are not modelled; the claims compare node sets and edge sets. -/
structure DiGraph where
  nodes : Finset ℕ
  edges : Finset (ℕ × ℕ)
deriving DecidableEq

/-- The empty directed graph. -/
def DiGraph.empty : DiGraph := ⟨∅, ∅⟩

/-- G.add_node(v): idempotent node insertion. -/
def add_node (G : DiGraph) (v : ℕ) : DiGraph :=
  ⟨insert v G.nodes, G.edges⟩

/-- G.add_edge(u, v): inserts the edge and any missing endpoint. -/
def add_edge (G : DiGraph) (u v : ℕ) : DiGraph :=
  ⟨insert u (insert v G.nodes), insert (u, v) G.edges⟩

/-- Model of np.argmax over positions [0, n): first index attaining the
maximum (the scan replaces the candidate only on a strictly larger value). -/
def np_argmax (row : ℕ → ℚ) (n : ℕ) : ℕ :=
  (List.range n).foldl (fun best j => if row best < row j then j else best) 0

/-- Neighbor list selected for one row of to_graph: with only_best, the single
argmax column kept only when its frequency reaches sigma; otherwise
np.where(row >= sigma). -/
def to_graph_row (sigma : ℚ) (only_best : Bool) (nS : ℕ) (row : ℕ → ℚ) : List ℕ :=
  if only_best then
    let best := np_argmax row nS
    if sigma ≤ row best then [best] else []
  else
    (List.range nS).filter fun j => decide (sigma ≤ row j)

/-- Body of the to_graph loop for row i: add node i, then for every selected
neighbor add the neighbor node and the edge i -> neighbor. -/
def to_graph_step (choices : ℕ → ℕ → ℚ) (sigma : ℚ) (only_best : Bool) (nS : ℕ)
    (G : DiGraph) (i : ℕ) : DiGraph :=
  (to_graph_row sigma only_best nS (choices i)).foldl
    (fun G2 j => add_edge (add_node G2 j) i j) (add_node G i)

/-- Model of to_graph. time_index only decorates nodes with dates, which are
not part of the node and edge sets the claims compare. -/
def to_graph (nS : ℕ) (choices : ℕ → ℕ → ℚ) (time_index : Option (ℕ → ℤ))
    (sigma : ℚ) (only_best : Bool) : DiGraph :=
  (List.range nS).foldl (to_graph_step choices sigma only_best nS) DiGraph.empty

instance : DecidableEq (Except PyError DiGraph) := fun a b =>
  match a, b with
  | .ok x, .ok y => decidable_of_iff (x = y) (by simp)
  | .ok _, .error _ => .isFalse (by simp)
  | .error _, .ok _ => .isFalse (by simp)
  | .error x, .error y => decidable_of_iff (x = y) (by simp)

/-- Model of bootstrap_network: the bootstrap estimate runs first, and an
exception it raises propagates unchanged (the label check is never reached).
When it completes, len(set(labels)) is evaluated (a TypeError for labels=None,
since None is not iterable) and compared with the row count (a ValueError on
mismatch of the count of distinct labels). The subsequent line substituting
np.arange for labels=None is unreachable in the None case. -/
def bootstrap_network (nS nF : ℕ) (X : ℕ → ℕ → ℚ) (labels : Option (List ℕ))
    (time_index : Option (ℕ → ℤ)) (year : ℤ → ℤ) (sigma sample_prop : ℚ)
    (n_iter : ℕ) (metric : List ℚ → List ℚ → ℚ) (n_jobs : ℕ)
    (only_best all_min : Bool) (w : World) : Except PyError DiGraph × World :=
  let res := bootstrap_neighbors nS nF X time_index year sigma sample_prop n_iter
    metric false n_jobs all_min false 5 w
  match res.1 with
  | .error e => (.error e, res.2)
  | .ok neighbors =>
    match labels with
    | none => (.error .typeError, res.2)
    | some ls =>
      if ls.dedup.length ≠ nS then (.error .valueError, res.2)
      else (.ok (to_graph nS neighbors time_index sigma only_best), res.2)

/-- Body of the evolving_graphs row loop: the node id of the processed row is
the running counter (its position in iteration order), while the edges point
to the raw column indices selected from the row. -/
def evolving_step (nS : ℕ) (choices : ℕ → ℕ → ℚ) (sigma : ℚ)
    (st : DiGraph × ℕ) (r : ℕ) : DiGraph × ℕ :=
  let neighbors := (List.range nS).filter fun j => decide (sigma ≤ choices r j)
  (neighbors.foldl (fun G2 j => add_edge (add_node G2 j) st.2 j) (add_node st.1 st.2),
   st.2 + 1)

/-- Processing of one pandas group with key k: run the row loop over the rows
of the group (the sorted rows whose grouped timestamp equals k, kept in sorted
order), then record the yielded snapshot of the cumulative graph. -/
def eg_group_step (nS : ℕ) (choices : ℕ → ℕ → ℚ) (t : ℕ → ℤ) (g : ℤ → ℤ)
    (sigma : ℚ) (sorted : List ℕ)
    (acc : List (ℤ × DiGraph) × (DiGraph × ℕ)) (k : ℤ) :
    List (ℤ × DiGraph) × (DiGraph × ℕ) :=
  let st := (sorted.filter fun r => decide (g (t r) = k)).foldl
    (evolving_step nS choices sigma) acc.2
  (acc.1 ++ [(k, st.1)], st)

/-- Model of evolving_graphs: rows are sorted by timestamp (pandas sort_index,
modelled as a stable sort), grouped by the grouping function of the timestamp
with group keys ascending (pandas groupby), and one cumulative snapshot of the
single growing graph is yielded per group. -/
def evolving_graphs (nS : ℕ) (choices : ℕ → ℕ → ℚ) (t : ℕ → ℤ) (g : ℤ → ℤ)
    (sigma : ℚ) : List (ℤ × DiGraph) :=
  let sorted := List.insertionSort (fun a b => t a ≤ t b) (List.range nS)
  let keys := List.insertionSort (· ≤ ·) ((sorted.map fun r => g (t r)).dedup)
  (keys.foldl (eg_group_step nS choices t g sigma sorted)
    (([] : List (ℤ × DiGraph)), (DiGraph.empty, 0))).1

/-- Concatenation of the per-key row blocks in key order: the overall order in
which the evolving-graph generator visits rows (proof helper). -/
def blocks_concat (t : ℕ → ℤ) (g : ℤ → ℤ) (nS : ℕ) : List ℤ → List ℕ
  | [] => []
  | k :: ks =>
    ((List.range nS).filter fun r => decide (g (t r) = k)) ++ blocks_concat t g nS ks

/-- A bootstrap iteration with positive row, feature and sampled-column counts
does not raise: an ok state steps to an ok state and the progress sink ticks
exactly once. -/
theorem bootstrap_step_ok (nS nF : ℕ) (X : ℕ → ℕ → ℚ) (ti : Option (ℕ → ℤ))
    (year : ℤ → ℤ) (ss : ℕ) (metric : List ℚ → List ℚ → ℚ) (am gp : Bool)
    (gb : ℤ) (h1 : 0 < nS) (h2 : 0 < ss) (h3 : 0 < nF)
    (st : Except PyError (ℕ → ℕ → ℕ) × World) (hok : run_is_ok st.1 = true) :
    run_is_ok ((bootstrap_iteration nS nF X ti year ss metric am gp gb st).1) = true ∧
    (bootstrap_iteration nS nF X ti year ss metric am gp gb st).2.progress =
      st.2.progress + 1 := by
  cases hc : st.1 with
  | error e =>
    rw [hc] at hok
    exact absurd hok (by simp [run_is_ok])
  | ok tally =>
    have hraise : ¬ (dist_fn_raises gp nS ss = true) := by
      cases gp <;> simp [dist_fn_raises] <;> omega
    simp only [bootstrap_iteration, hc]
    rw [if_neg (by omega : ¬ nF = 0), if_neg hraise]
    exact ⟨rfl, rfl⟩

/-- A run with positive row, feature and sampled-column counts never raises:
after T iterations the state is still ok and the progress sink has advanced by
exactly T ticks. -/
theorem bootstrap_iterate_ok (nS nF : ℕ) (X : ℕ → ℕ → ℚ) (ti : Option (ℕ → ℤ))
    (year : ℤ → ℤ) (ss : ℕ) (metric : List ℚ → List ℚ → ℚ) (am gp : Bool)
    (gb : ℤ) (h1 : 0 < nS) (h2 : 0 < ss) (h3 : 0 < nF) :
    ∀ (T : ℕ) (st : Except PyError (ℕ → ℕ → ℕ) × World), run_is_ok st.1 = true →
      run_is_ok (((bootstrap_iteration nS nF X ti year ss metric am gp gb)^[T]
          st).1) = true ∧
      ((bootstrap_iteration nS nF X ti year ss metric am gp gb)^[T]
          st).2.progress = st.2.progress + T := by
  intro T
  induction T with
  | zero => intro st hok; exact ⟨hok, rfl⟩
  | succ n ih =>
    intro st hok
    rw [Function.iterate_succ_apply]
    obtain ⟨hok1, hprog1⟩ := bootstrap_step_ok nS nF X ti year ss metric am gp gb
      h1 h2 h3 st hok
    obtain ⟨hok2, hprog2⟩ := ih _ hok1
    refine ⟨hok2, ?_⟩
    rw [hprog2, hprog1]
    omega

/-- A run with positive row and sampled-column counts completes: the frequency
matrix is returned normally and every iteration ticked the progress sink. -/
theorem bootstrap_neighbors_ok (nS nF : ℕ) (X : ℕ → ℕ → ℚ) (ti : Option (ℕ → ℤ))
    (year : ℤ → ℤ) (sigma sample_prop : ℚ) (n_iter : ℕ)
    (metric : List ℚ → List ℚ → ℚ) (rd : Bool) (nj : ℕ) (am gp : Bool) (gb : ℤ)
    (w : World) (h1 : 0 < nS) (hsz : 0 < (⌊(nF : ℚ) * sample_prop⌋).toNat) :
    (∃ F, (bootstrap_neighbors nS nF X ti year sigma sample_prop n_iter metric
        rd nj am gp gb w).1 = .ok F) ∧
    (bootstrap_neighbors nS nF X ti year sigma sample_prop n_iter metric
        rd nj am gp gb w).2.progress = w.progress + n_iter := by
  have h3 : 0 < nF := by
    rcases Nat.eq_zero_or_pos nF with hf | hf
    · subst hf
      simp at hsz
    · exact hf
  obtain ⟨hok, hprog⟩ := bootstrap_iterate_ok nS nF X ti year
    ((⌊(nF : ℚ) * sample_prop⌋).toNat) metric am gp gb h1 hsz h3 n_iter
    (.ok fun _ _ => 0, w) rfl
  constructor
  · cases hE : ((bootstrap_iteration nS nF X ti year
        ((⌊(nF : ℚ) * sample_prop⌋).toNat) metric am gp gb)^[n_iter]
        (.ok fun _ _ => 0, w)).1 with
    | error e =>
      rw [hE] at hok
      exact absurd hok (by simp [run_is_ok])
    | ok t2 =>
      refine ⟨fun i j => (t2 i j : ℚ) / (n_iter : ℚ), ?_⟩
      simp only [bootstrap_neighbors]
      rw [hE]
      rfl
  · simpa only [bootstrap_neighbors] using hprog

/-- One bootstrap iteration reads only the tally-or-error and the PRNG
component of the world; two states agreeing there produce agreeing results. -/
theorem bootstrap_step_cong (nS nF : ℕ) (X : ℕ → ℕ → ℚ) (ti : Option (ℕ → ℤ))
    (year : ℤ → ℤ) (ss : ℕ) (metric : List ℚ → List ℚ → ℚ) (am gp : Bool) (gb : ℤ)
    (s1 s2 : Except PyError (ℕ → ℕ → ℕ) × World) (h1 : s1.1 = s2.1)
    (h2 : s1.2.rng = s2.2.rng) :
    (bootstrap_iteration nS nF X ti year ss metric am gp gb s1).1 =
      (bootstrap_iteration nS nF X ti year ss metric am gp gb s2).1 ∧
    (bootstrap_iteration nS nF X ti year ss metric am gp gb s1).2.rng =
      (bootstrap_iteration nS nF X ti year ss metric am gp gb s2).2.rng := by
  cases hc : s1.1 with
  | error e =>
    have hc2 : s2.1 = .error e := h1.symm.trans hc
    simp only [bootstrap_iteration, hc, hc2]
    exact ⟨trivial, h2⟩
  | ok tally =>
    have hc2 : s2.1 = .ok tally := h1.symm.trans hc
    simp only [bootstrap_iteration, hc, hc2]
    by_cases hf : nF = 0
    · rw [if_pos hf, if_pos hf]
      exact ⟨rfl, h2⟩
    · rw [if_neg hf, if_neg hf, h2]
      by_cases hr : dist_fn_raises gp nS ss = true
      · rw [if_pos hr, if_pos hr]
        exact ⟨rfl, rfl⟩
      · rw [if_neg hr, if_neg hr]
        exact ⟨rfl, rfl⟩

/-- Iterating the bootstrap step preserves agreement of the tally-or-error
state under agreement of the PRNG state. -/
theorem bootstrap_iterate_rng_eq (nS nF : ℕ) (X : ℕ → ℕ → ℚ) (ti : Option (ℕ → ℤ))
    (year : ℤ → ℤ) (ss : ℕ) (metric : List ℚ → List ℚ → ℚ) (am gp : Bool) (gb : ℤ) :
    ∀ (T : ℕ) (s1 s2 : Except PyError (ℕ → ℕ → ℕ) × World),
      s1.1 = s2.1 → s1.2.rng = s2.2.rng →
      ((bootstrap_iteration nS nF X ti year ss metric am gp gb)^[T] s1).1 =
        ((bootstrap_iteration nS nF X ti year ss metric am gp gb)^[T] s2).1 := by
  intro T
  induction T with
  | zero => intro s1 s2 h1 _; simpa using h1
  | succ n ih =>
    intro s1 s2 h1 h2
    rw [Function.iterate_succ_apply, Function.iterate_succ_apply]
    have h := bootstrap_step_cong nS nF X ti year ss metric am gp gb s1 s2 h1 h2
    exact ih _ _ h.1 h.2

/-- The entry-wise effect of one block write: cell (i, j) is overwritten with
the metric value exactly when row i lies in bucket v and column j in a bucket
at most v (the emptiness guards never block such a write, row i witnessing
both). -/
theorem tg_write_entry {α : Type} (nS : ℕ) (metric : α → α → ℚ) (rows : ℕ → α)
    (yr : ℕ → ℤ) (g : ℤ) (dm : ℕ → ℕ → ℚ) (v : ℤ) (i j : ℕ) :
    tg_write nS metric rows yr g dm v i j =
      if i < nS ∧ bucket g (yr i) = v ∧ j < nS ∧ bucket g (yr j) ≤ v then
        metric (rows i) (rows j)
      else dm i j := by
  unfold tg_write
  by_cases hb : (((List.range nS).any fun i => decide (bucket g (yr i) = v)) &&
      ((List.range nS).any fun j => decide (bucket g (yr j) ≤ v))) = true
  · rw [if_pos hb]
    rfl
  · rw [if_neg hb]
    have hC : ¬ (i < nS ∧ bucket g (yr i) = v ∧ j < nS ∧ bucket g (yr j) ≤ v) := by
      rintro ⟨h1, h2, h3, h4⟩
      apply hb
      refine Bool.and_eq_true_iff.mpr ⟨?_, ?_⟩
      · exact List.any_eq_true.mpr ⟨i, List.mem_range.mpr h1, by simpa using h2⟩
      · exact List.any_eq_true.mpr ⟨j, List.mem_range.mpr h3, by simpa using h4⟩
    rw [if_neg hC]

/-- Folding block writes over any list of bucket values: cell (i, j) holds the
metric value iff the bucket of row i occurs in the list and (i, j) is an
in-range causal-bucket pair; otherwise it keeps its initial value. -/
theorem tg_fold_entry {α : Type} (nS : ℕ) (metric : α → α → ℚ) (rows : ℕ → α)
    (yr : ℕ → ℤ) (g : ℤ) (i j : ℕ) :
    ∀ (L : List ℤ) (dm : ℕ → ℕ → ℚ),
      L.foldl (tg_write nS metric rows yr g) dm i j =
        if bucket g (yr i) ∈ L ∧ i < nS ∧ j < nS ∧ bucket g (yr j) ≤ bucket g (yr i) then
          metric (rows i) (rows j)
        else dm i j := by
  intro L
  induction L with
  | nil => intro dm; simp
  | cons v L ih =>
    intro dm
    rw [List.foldl_cons, ih, tg_write_entry]
    by_cases hv : bucket g (yr i) = v
    · subst hv
      by_cases hC : i < nS ∧ j < nS ∧ bucket g (yr j) ≤ bucket g (yr i)
      · obtain ⟨h1, h3, h4⟩ := hC
        by_cases hm : bucket g (yr i) ∈ L
        · rw [if_pos ⟨hm, h1, h3, h4⟩, if_pos ⟨List.mem_cons_self _ _, h1, h3, h4⟩]
        · rw [if_neg (by tauto), if_pos ⟨h1, rfl, h3, h4⟩,
            if_pos ⟨List.mem_cons_self _ _, h1, h3, h4⟩]
      · rw [if_neg (by tauto), if_neg (by tauto), if_neg (by tauto)]
    · by_cases hrest : bucket g (yr i) ∈ L ∧ i < nS ∧ j < nS ∧
          bucket g (yr j) ≤ bucket g (yr i)
      · rw [if_pos hrest, if_pos ⟨List.mem_cons_of_mem _ hrest.1, hrest.2⟩]
      · rw [if_neg hrest, if_neg (by tauto),
          if_neg (fun h => hrest ⟨(List.mem_cons.mp h.1).resolve_left hv, h.2⟩)]

/-- C6: for every input and metric, the grouped computation agrees with the
plain ungrouped pairwise_distances at every in-range pair whose column bucket
is at most its row bucket, and every entry outside the computed blocks is 0. -/
theorem C6_grouped_eq_ungrouped {α : Type} (nS : ℕ) (metric : α → α → ℚ)
    (rows : ℕ → α) (yr : ℕ → ℤ) (g : ℤ) (hg : g ≠ 0) (i j : ℕ) :
    time_grouped_pairwise_distances nS metric rows yr g i j =
      if i < nS ∧ j < nS ∧ bucket g (yr j) ≤ bucket g (yr i) then
        pairwise_distances metric rows rows i j
      else 0 := by
  unfold time_grouped_pairwise_distances
  rw [tg_fold_entry]
  by_cases hi : i < nS
  · have hmem : bucket g (yr i) ∈
        List.insertionSort (· ≤ ·) (((List.range nS).map fun r => bucket g (yr r)).dedup) := by
      rw [(List.perm_insertionSort _ _).mem_iff, List.mem_dedup]
      exact List.mem_map.mpr ⟨i, List.mem_range.mpr hi, rfl⟩
    by_cases hC : j < nS ∧ bucket g (yr j) ≤ bucket g (yr i)
    · rw [if_pos ⟨hmem, hi, hC⟩, if_pos ⟨hi, hC⟩]
      rfl
    · rw [if_neg (by tauto), if_neg (by tauto)]
  · rw [if_neg (by tauto), if_neg (by tauto)]

/-- C6 witness: the spec example years [2000, 2001, 2006, 2011] with groupby 5,
checked at the causal pair (2, 0). -/
theorem C6_grouped_eq_ungrouped_witness :
    ((5 : ℤ) ≠ 0) ∧
    time_grouped_pairwise_distances 4 (fun a b : ℚ => a - b) (fun r => (r : ℚ))
        (fun r => [2000, 2001, 2006, 2011].getD r 0) 5 2 0 =
      (if 2 < 4 ∧ 0 < 4 ∧ bucket 5 ([2000, 2001, 2006, 2011].getD 0 0) ≤
          bucket 5 ([2000, 2001, 2006, 2011].getD 2 0) then
        pairwise_distances (fun a b : ℚ => a - b) (fun r => (r : ℚ)) (fun r => (r : ℚ)) 2 0
      else 0) :=
  ⟨by decide, C6_grouped_eq_ungrouped 4 (fun a b : ℚ => a - b) (fun r => (r : ℚ))
    (fun r => [2000, 2001, 2006, 2011].getD r 0) 5 (by decide) 2 0⟩

/-- Edge membership after the inner neighbor loop of the graph builders: the
loop adds exactly the edges from i to the listed columns. -/
theorem row_fold_edges (i : ℕ) (l : List ℕ) :
    ∀ (G : DiGraph) (p : ℕ × ℕ),
      (p ∈ (l.foldl (fun G2 j => add_edge (add_node G2 j) i j) G).edges) ↔
        p ∈ G.edges ∨ ∃ j ∈ l, p = (i, j) := by
  induction l with
  | nil => intro G p; simp
  | cons a l ih =>
    intro G p
    rw [List.foldl_cons, ih]
    simp only [add_edge, add_node, Finset.mem_insert, List.mem_cons]
    constructor
    · rintro (h | h)
      · rcases h with h | h
        · exact Or.inr ⟨a, Or.inl rfl, h⟩
        · exact Or.inl h
      · rcases h with ⟨j, hj, hp⟩
        exact Or.inr ⟨j, Or.inr hj, hp⟩
    · rintro (h | ⟨j, hj | hj, hp⟩)
      · exact Or.inl (Or.inr h)
      · exact Or.inl (Or.inl (hj ▸ hp))
      · exact Or.inr ⟨j, hj, hp⟩

/-- Edge membership after folding to_graph_step over a list of rows. -/
theorem to_graph_fold_edges (choices : ℕ → ℕ → ℚ) (sigma : ℚ) (ob : Bool)
    (nS : ℕ) (l : List ℕ) :
    ∀ (G : DiGraph) (p : ℕ × ℕ),
      (p ∈ (l.foldl (to_graph_step choices sigma ob nS) G).edges) ↔
        p ∈ G.edges ∨ ∃ i ∈ l, ∃ j ∈ to_graph_row sigma ob nS (choices i), p = (i, j) := by
  induction l with
  | nil => intro G p; simp
  | cons a l ih =>
    intro G p
    rw [List.foldl_cons, ih]
    have h := row_fold_edges a (to_graph_row sigma ob nS (choices a)) (add_node G a) p
    simp only [to_graph_step]
    rw [h]
    simp only [add_node, List.mem_cons]
    constructor
    · rintro ((h | ⟨j, hj, hp⟩) | ⟨i, hi, hj⟩)
      · exact Or.inl h
      · exact Or.inr ⟨a, Or.inl rfl, j, hj, hp⟩
      · exact Or.inr ⟨i, Or.inr hi, hj⟩
    · rintro (h | ⟨i, hi | hi, hj⟩)
      · exact Or.inl (Or.inl h)
      · subst hi
        exact Or.inl (Or.inr hj)
      · exact Or.inr ⟨i, hi, hj⟩

/-- Edge membership in the graph produced by to_graph. -/
theorem to_graph_mem_edges (nS : ℕ) (choices : ℕ → ℕ → ℚ)
    (ti : Option (ℕ → ℤ)) (sigma : ℚ) (ob : Bool) (p : ℕ × ℕ) :
    p ∈ (to_graph nS choices ti sigma ob).edges ↔
      ∃ i ∈ List.range nS, ∃ j ∈ to_graph_row sigma ob nS (choices i), p = (i, j) := by
  unfold to_graph
  rw [to_graph_fold_edges]
  simp [DiGraph.empty]

/-- C7: with only_best, every node has at most one outgoing edge; without, an
edge (i, j) exists iff both indices are in range and the frequency reaches
sigma. -/
theorem C7_threshold_edges (nS : ℕ) (F : ℕ → ℕ → ℚ) (ti : Option (ℕ → ℤ))
    (sigma : ℚ) :
    (∀ u, ((to_graph nS F ti sigma true).edges.filter fun e => e.1 = u).card ≤ 1) ∧
    (∀ i j, (i, j) ∈ (to_graph nS F ti sigma false).edges ↔
      i < nS ∧ j < nS ∧ sigma ≤ F i j) := by
  constructor
  · intro u
    rw [Finset.card_le_one]
    have hchar : ∀ q ∈ (to_graph nS F ti sigma true).edges.filter fun e => e.1 = u,
        q = (u, np_argmax (F u) nS) := by
      intro q hq
      obtain ⟨hqe, hqu⟩ := Finset.mem_filter.mp hq
      obtain ⟨i, _, j, hj, hp⟩ := (to_graph_mem_edges nS F ti sigma true q).mp hqe
      subst hp
      have hiu : i = u := hqu
      subst hiu
      by_cases hs : sigma ≤ F i (np_argmax (F i) nS)
      · simp [to_graph_row, hs] at hj
        rw [hj]
      · simp [to_graph_row, hs] at hj
    intro a ha b hb
    rw [hchar a ha, hchar b hb]
  · intro i j
    rw [to_graph_mem_edges]
    constructor
    · rintro ⟨i2, hi2, j2, hj2, hp⟩
      simp only [to_graph_row, Bool.false_eq_true, if_false, List.mem_filter,
        List.mem_range, decide_eq_true_eq] at hj2
      obtain ⟨hi, hj⟩ := Prod.mk.injEq i j i2 j2 ▸ hp
      rw [Prod.mk.injEq] at hp
      obtain ⟨hi, hj⟩ := hp
      subst hi; subst hj
      exact ⟨List.mem_range.mp hi2, hj2.1, hj2.2⟩
    · rintro ⟨hi, hj, hs⟩
      refine ⟨i, List.mem_range.mpr hi, j, ?_, rfl⟩
      simp only [to_graph_row, Bool.false_eq_true, if_false, List.mem_filter,
        List.mem_range, decide_eq_true_eq]
      exact ⟨hj, hs⟩

/-- Two strictly increasing lists of naturals with the same members are equal. -/
theorem sorted_lt_eq_of_mem_iff :
    ∀ (l1 l2 : List ℕ), l1.Pairwise (· < ·) → l2.Pairwise (· < ·) →
      (∀ x, x ∈ l1 ↔ x ∈ l2) → l1 = l2 := by
  intro l1
  induction l1 with
  | nil =>
    intro l2 _ _ hm
    cases l2 with
    | nil => rfl
    | cons b t2 => exact absurd ((hm b).mpr (List.mem_cons_self b t2)) (List.not_mem_nil b)
  | cons a t1 ih =>
    intro l2 h1 h2 hm
    cases l2 with
    | nil => exact absurd ((hm a).mp (List.mem_cons_self a t1)) (List.not_mem_nil a)
    | cons b t2 =>
      have hab : a = b := by
        rcases List.mem_cons.mp ((hm a).mp (List.mem_cons_self a t1)) with h | h
        · exact h
        · rcases List.mem_cons.mp ((hm b).mpr (List.mem_cons_self b t2)) with h2' | h2'
          · exact h2'.symm
          · exact absurd (Nat.lt_trans (List.rel_of_pairwise_cons h2 h)
              (List.rel_of_pairwise_cons h1 h2')) (Nat.lt_irrefl b)
      subst hab
      have hm' : ∀ x, x ∈ t1 ↔ x ∈ t2 := by
        intro x
        constructor
        · intro hx
          have hax : a < x := List.rel_of_pairwise_cons h1 hx
          rcases List.mem_cons.mp ((hm x).mp (List.mem_cons_of_mem a hx)) with h | h
          · exact absurd (h ▸ hax) (Nat.lt_irrefl a)
          · exact h
        · intro hx
          have hax : a < x := List.rel_of_pairwise_cons h2 hx
          rcases List.mem_cons.mp ((hm x).mpr (List.mem_cons_of_mem a hx)) with h | h
          · exact absurd (h ▸ hax) (Nat.lt_irrefl a)
          · exact h
      rw [ih t2 h1.of_cons h2.of_cons hm']

/-- Membership in the concatenated blocks. -/
theorem mem_blocks_concat (t : ℕ → ℤ) (g : ℤ → ℤ) (nS : ℕ) :
    ∀ (keys : List ℤ) (x : ℕ),
      x ∈ blocks_concat t g nS keys ↔ (x < nS ∧ g (t x) ∈ keys) := by
  intro keys
  induction keys with
  | nil => intro x; simp [blocks_concat]
  | cons k ks ih =>
    intro x
    simp only [blocks_concat, List.mem_append, List.mem_filter, List.mem_range,
      decide_eq_true_eq, List.mem_cons, ih]
    tauto

/-- When the grouped timestamp is monotone in the row index and the keys are
strictly increasing, the concatenated blocks are strictly increasing. -/
theorem pairwise_blocks_concat (t : ℕ → ℤ) (g : ℤ → ℤ) (nS : ℕ)
    (hf : Monotone fun r => g (t r)) :
    ∀ (keys : List ℤ), keys.Pairwise (· < ·) →
      (blocks_concat t g nS keys).Pairwise (· < ·) := by
  intro keys
  induction keys with
  | nil => intro _; simp [blocks_concat]
  | cons k ks ih =>
    intro hp
    simp only [blocks_concat]
    rw [List.pairwise_append]
    refine ⟨(List.pairwise_lt_range nS).filter _, ih hp.of_cons, ?_⟩
    intro x hx y hy
    have hfx : g (t x) = k := by
      have := (List.mem_filter.mp hx).2
      simpa using this
    have hy' := (mem_blocks_concat t g nS ks y).mp hy
    have hky : k < g (t y) := List.rel_of_pairwise_cons hp hy'.2
    rcases Nat.lt_or_ge x y with h | h
    · exact h
    · have hle : g (t y) ≤ g (t x) := hf h
      rw [hfx] at hle
      exact absurd (lt_of_lt_of_le hky hle) (lt_irrefl k)

/-- The nested fold over keys and per-key rows equals a single fold over the
concatenated blocks. -/
theorem foldl_blocks_concat {σT : Type} (t : ℕ → ℤ) (g : ℤ → ℤ) (nS : ℕ)
    (step : σT → ℕ → σT) :
    ∀ (keys : List ℤ) (st : σT),
      keys.foldl
          (fun st2 k => ((List.range nS).filter fun r => decide (g (t r) = k)).foldl step st2)
          st =
        (blocks_concat t g nS keys).foldl step st := by
  intro keys
  induction keys with
  | nil => intro st; rfl
  | cons k ks ih =>
    intro st
    rw [List.foldl_cons, ih]
    simp only [blocks_concat]
    rw [List.foldl_append]

/-- When the running counter agrees with the row id, the evolving-graph row
step coincides with the to_graph row step in threshold mode. -/
theorem eg_step_eq (nS : ℕ) (choices : ℕ → ℕ → ℚ) (sigma : ℚ) (G : DiGraph) (r : ℕ) :
    evolving_step nS choices sigma (G, r) r =
      (to_graph_step choices sigma false nS G r, r + 1) := rfl

/-- Folding the evolving-graph row step over consecutive row ids starting at
the current counter value reproduces the to_graph fold. -/
theorem eg_counter (nS : ℕ) (choices : ℕ → ℕ → ℚ) (sigma : ℚ) :
    ∀ (n c : ℕ) (G : DiGraph),
      (List.range' c n).foldl (evolving_step nS choices sigma) (G, c) =
        ((List.range' c n).foldl (to_graph_step choices sigma false nS) G, c + n) := by
  intro n
  induction n with
  | zero => intro c G; simp
  | succ m ih =>
    intro c G
    rw [List.range'_succ, List.foldl_cons, List.foldl_cons, eg_step_eq, ih (c + 1)]
    refine Prod.ext ?_ ?_
    · rfl
    · simp only []
      omega

/-- The last snapshot recorded by the group fold carries the graph of the
full nested fold. -/
theorem eg_fold_last (nS : ℕ) (choices : ℕ → ℕ → ℚ) (t : ℕ → ℤ) (g : ℤ → ℤ)
    (sigma : ℚ) (sorted : List ℕ) :
    ∀ (keys : List ℤ), keys ≠ [] → ∀ (out : List (ℤ × DiGraph)) (st : DiGraph × ℕ),
      ∃ k, (keys.foldl (eg_group_step nS choices t g sigma sorted) (out, st)).1.getLastD
          (0, DiGraph.empty) =
        (k, (keys.foldl
          (fun st2 k => (sorted.filter fun r => decide (g (t r) = k)).foldl
            (evolving_step nS choices sigma) st2) st).1) := by
  intro keys
  induction keys with
  | nil => intro h; exact absurd rfl h
  | cons k ks ih =>
    intro _ out st
    cases ks with
    | nil =>
      refine ⟨k, ?_⟩
      simp [eg_group_step, List.getLastD_concat]
    | cons k2 ks2 =>
      obtain ⟨k3, h3⟩ := ih (by simp) (eg_group_step nS choices t g sigma sorted (out, st) k).1
        (eg_group_step nS choices t g sigma sorted (out, st) k).2
      exact ⟨k3, by rw [List.foldl_cons, List.foldl_cons]; exact h3⟩

/-- C4 counterexample: with the descending time index (1, 0) the generator
attributes the rows to counter-based node ids, so the final graph differs from
the to_graph output on the same inputs (edge (1,1) instead of (0,1)). -/
theorem C4_evolving_ne_to_graph :
    ¬ (((evolving_graphs 2 (fun i j => if i = 0 ∧ j = 1 then 1 else 0)
          (fun r => if r = 0 then (1 : ℤ) else 0) (fun x => x) (1/2)).getLastD
            (0, DiGraph.empty)).2 =
        to_graph 2 (fun i j => if i = 0 ∧ j = 1 then 1 else 0)
          (some fun r => if r = 0 then (1 : ℤ) else 0) (1/2) false) := by
  with_unfolding_all decide

/-- C4 (amended): when the time index is ascending in the row number and the
grouping function is monotone (so that the group-by-group traversal preserves
the row order and the running counter coincides with the row id), the graph
yielded with the last group is exactly the to_graph output from the same
frequency matrix, time index and sigma with only_best = False. -/
theorem C4_evolving_final_eq_to_graph (nS : ℕ) (choices : ℕ → ℕ → ℚ) (t : ℕ → ℤ)
    (g : ℤ → ℤ) (sigma : ℚ) (ht : Monotone t) (hg : Monotone g) (h0 : 0 < nS) :
    ((evolving_graphs nS choices t g sigma).getLastD (0, DiGraph.empty)).2 =
      to_graph nS choices (some t) sigma false := by
  have hsorted : List.insertionSort (fun a b => t a ≤ t b) (List.range nS) =
      List.range nS :=
    List.Sorted.insertionSort_eq ((List.pairwise_lt_range nS).imp fun h => ht h.le)
  simp only [evolving_graphs]
  rw [hsorted]
  set keys := List.insertionSort (· ≤ ·) (((List.range nS).map fun r => g (t r)).dedup)
    with hkeys
  have hknodup : keys.Nodup :=
    (List.perm_insertionSort _ _).nodup_iff.mpr (List.nodup_dedup _)
  have hklt : keys.Pairwise (· < ·) :=
    (List.sorted_insertionSort _ _).lt_of_le hknodup
  have hkmem : ∀ r, r < nS → g (t r) ∈ keys := by
    intro r hr
    rw [hkeys, (List.perm_insertionSort _ _).mem_iff, List.mem_dedup]
    exact List.mem_map.mpr ⟨r, List.mem_range.mpr hr, rfl⟩
  have hkne : keys ≠ [] := by
    intro he
    have := hkmem 0 h0
    rw [he] at this
    exact List.not_mem_nil _ this
  obtain ⟨k, hk⟩ :=
    eg_fold_last nS choices t g sigma (List.range nS) keys hkne [] (DiGraph.empty, 0)
  rw [hk]
  rw [foldl_blocks_concat t g nS (evolving_step nS choices sigma) keys (DiGraph.empty, 0)]
  have hblocks : blocks_concat t g nS keys = List.range nS := by
    apply sorted_lt_eq_of_mem_iff
    · exact pairwise_blocks_concat t g nS (hg.comp ht) keys hklt
    · exact List.pairwise_lt_range nS
    · intro x
      rw [mem_blocks_concat, List.mem_range]
      exact ⟨fun h => h.1, fun h => ⟨h, hkmem x h⟩⟩
  rw [hblocks, List.range_eq_range', eg_counter nS choices sigma nS 0 DiGraph.empty,
    ← List.range_eq_range']
  rfl

/-- C4 witness: an ascending two-row instance with the identity grouping. -/
theorem C4_evolving_final_eq_to_graph_witness :
    Monotone (fun r : ℕ => (r : ℤ)) ∧ Monotone (fun x : ℤ => x) ∧ 0 < 2 ∧
    ((evolving_graphs 2 (fun i j => if i = 1 ∧ j = 0 then 1 else 0)
        (fun r : ℕ => (r : ℤ)) (fun x : ℤ => x) (1/2)).getLastD (0, DiGraph.empty)).2 =
      to_graph 2 (fun i j => if i = 1 ∧ j = 0 then 1 else 0)
        (some fun r : ℕ => (r : ℤ)) (1/2) false :=
  ⟨fun a b h => Int.ofNat_le.mpr h, fun a b h => h, by decide,
    C4_evolving_final_eq_to_graph 2 (fun i j => if i = 1 ∧ j = 0 then 1 else 0)
      (fun r : ℕ => (r : ℤ)) (fun x : ℤ => x) (1/2)
      (fun a b h => Int.ofNat_le.mpr h) (fun a b h => h) (by decide)⟩

/-- C5 counterexample: with two features and sample_prop 1/2 each iteration
draws one feature column and completes normally; labels [5, 5] mismatch the
1-row input in raw count yet no ValueError is raised (the check counts
distinct labels), while labels [1, 2] raise a ValueError only after both
bootstrap iterations have run (progress 2, not 0). -/
theorem C5_check_after_bootstrap :
    run_is_ok (bootstrap_network 1 2 (fun _ _ => 0) (some [5, 5]) none (fun y => y)
        (1/2) (1/2) 2 (fun _ _ => 0) 1 false false ⟨0, 0⟩).1 = true ∧
    (bootstrap_network 1 2 (fun _ _ => 0) (some [1, 2]) none (fun y => y)
        (1/2) (1/2) 2 (fun _ _ => 0) 1 false false ⟨0, 0⟩).1 = .error .valueError ∧
    (bootstrap_network 1 2 (fun _ _ => 0) (some [1, 2]) none (fun y => y)
        (1/2) (1/2) 2 (fun _ _ => 0) 1 false false ⟨0, 0⟩).2.progress = 2 := by
  with_unfolding_all decide

/-- C5 (amended): on a run where the estimator completes (positive row count
and positive sampled-feature count), a number of distinct labels different
from the row count makes bootstrap_network raise ValueError, but only after
the complete bootstrap computation (all n_iter iterations, as counted by the
progress sink) has already run. -/
theorem C5_unique_label_mismatch_late_error (nS nF : ℕ) (X : ℕ → ℕ → ℚ)
    (ls : List ℕ) (ti : Option (ℕ → ℤ)) (year : ℤ → ℤ) (sigma sample_prop : ℚ)
    (n_iter : ℕ) (metric : List ℚ → List ℚ → ℚ) (nj : ℕ) (ob am : Bool)
    (w : World) (h : ls.dedup.length ≠ nS) (h1 : 0 < nS)
    (hsz : 0 < (⌊(nF : ℚ) * sample_prop⌋).toNat) :
    (bootstrap_network nS nF X (some ls) ti year sigma sample_prop n_iter metric
        nj ob am w).1 = .error .valueError ∧
    (bootstrap_network nS nF X (some ls) ti year sigma sample_prop n_iter metric
        nj ob am w).2.progress = w.progress + n_iter := by
  obtain ⟨⟨F, hF⟩, hprog⟩ := bootstrap_neighbors_ok nS nF X ti year sigma
    sample_prop n_iter metric false nj am false 5 w h1 hsz
  constructor
  · simp only [bootstrap_network, hF]
    rw [if_pos h]
  · simp only [bootstrap_network, hF]
    rw [if_pos h]
    exact hprog

/-- C5 witness: concrete mismatching distinct-label count on a two-feature run
where every iteration completes. -/
theorem C5_unique_label_mismatch_late_error_witness :
    ([1, 2, 2].dedup.length ≠ 1) ∧ (0 < 1) ∧
    (0 < (⌊((2 : ℕ) : ℚ) * (1/2)⌋).toNat) ∧
    ((bootstrap_network 1 2 (fun _ _ => 0) (some [1, 2, 2]) none (fun y => y)
        (1/2) (1/2) 3 (fun _ _ => 0) 1 false false ⟨0, 0⟩).1 = .error .valueError ∧
     (bootstrap_network 1 2 (fun _ _ => 0) (some [1, 2, 2]) none (fun y => y)
        (1/2) (1/2) 3 (fun _ _ => 0) 1 false false ⟨0, 0⟩).2.progress = 0 + 3) :=
  ⟨by decide, by decide, by with_unfolding_all decide,
    C5_unique_label_mismatch_late_error 1 2 (fun _ _ => 0) [1, 2, 2] none
      (fun y => y) (1/2) (1/2) 3 (fun _ _ => 0) 1 false false ⟨0, 0⟩ (by decide)
      (by decide) (by with_unfolding_all decide)⟩

/-- C8: bootstrap_neighbors is deterministic in the random seed: two runs with
identical inputs and parameters whose worlds carry the same PRNG state return
identical frequency matrices, whatever the rest of the world (for instance the
progress sink) holds. -/
theorem C8_seed_determinism (nS nF : ℕ) (X : ℕ → ℕ → ℚ) (ti : Option (ℕ → ℤ))
    (year : ℤ → ℤ) (sigma sample_prop : ℚ) (n_iter : ℕ)
    (metric : List ℚ → List ℚ → ℚ) (rd : Bool) (nj : ℕ) (am gp : Bool) (gb : ℤ)
    (w1 w2 : World) (h : w1.rng = w2.rng) :
    (bootstrap_neighbors nS nF X ti year sigma sample_prop n_iter metric rd nj
        am gp gb w1).1 =
      (bootstrap_neighbors nS nF X ti year sigma sample_prop n_iter metric rd nj
        am gp gb w2).1 := by
  simp only [bootstrap_neighbors]
  rw [bootstrap_iterate_rng_eq nS nF X ti year _ metric am gp gb n_iter
    (.ok fun _ _ => 0, w1) (.ok fun _ _ => 0, w2) rfl h]

/-- C8 witness: two runs from the same seed 42 with different progress
counters produce the same matrix. -/
theorem C8_seed_determinism_witness :
    (⟨42, 0⟩ : World).rng = (⟨42, 99⟩ : World).rng ∧
    (bootstrap_neighbors 2 3 (fun i j => (i : ℚ) + j) none (fun y => y)
        (1/2) (1/2) 5 (fun a b => (a.length : ℚ) + b.length) false 1 false false
        5 ⟨42, 0⟩).1 =
      (bootstrap_neighbors 2 3 (fun i j => (i : ℚ) + j) none (fun y => y)
        (1/2) (1/2) 5 (fun a b => (a.length : ℚ) + b.length) false 1 false false
        5 ⟨42, 99⟩).1 :=
  ⟨rfl, C8_seed_determinism 2 3 (fun i j => (i : ℚ) + j) none (fun y => y)
    (1/2) (1/2) 5 (fun a b => (a.length : ℚ) + b.length) false 1 false false
    5 ⟨42, 0⟩ ⟨42, 99⟩ rfl⟩

/-- C10: the result of bootstrap_neighbors does not depend on its sigma
parameter: the whole result (matrix-or-error and world) coincides for any two
sigma values with all other inputs and the initial world identical. -/
theorem C10_sigma_independent (nS nF : ℕ) (X : ℕ → ℕ → ℚ) (ti : Option (ℕ → ℤ))
    (year : ℤ → ℤ) (sigma1 sigma2 sample_prop : ℚ) (n_iter : ℕ)
    (metric : List ℚ → List ℚ → ℚ) (rd : Bool) (nj : ℕ) (am gp : Bool) (gb : ℤ)
    (w : World) :
    bootstrap_neighbors nS nF X ti year sigma1 sample_prop n_iter metric rd nj
        am gp gb w =
      bootstrap_neighbors nS nF X ti year sigma2 sample_prop n_iter metric rd nj
        am gp gb w := rfl

/-- C9 counterexample: with a single feature and the default sample_prop 1/2,
the sampled-column count is int(1 * 0.5) = 0, so the first bootstrap iteration
raises sklearn ValueError inside pairwise_distances; bootstrap_network with
labels=None propagates that ValueError and never raises the claimed TypeError. -/
theorem C9_labels_none_counterexample :
    (bootstrap_network 2 1 (fun _ _ => 0) none none (fun y => y)
      (1/2) (1/2) 1 (fun _ _ => 0) 1 false false ⟨0, 0⟩).1 = .error .valueError ∧
    ¬ ((bootstrap_network 2 1 (fun _ _ => 0) none none (fun y => y)
      (1/2) (1/2) 1 (fun _ _ => 0) 1 false false ⟨0, 0⟩).1 = .error .typeError) := by
  with_unfolding_all decide

/-- C9 (amended): whenever the bootstrap itself completes -- in particular for
every input with a positive row count and a positive sampled-feature count --
bootstrap_network with labels=None raises TypeError: len(set(None)) is
evaluated before the None fallback line, so that fallback is unreachable. -/
theorem C9_labels_none_type_error (nS nF : ℕ) (X : ℕ → ℕ → ℚ)
    (ti : Option (ℕ → ℤ)) (year : ℤ → ℤ) (sigma sample_prop : ℚ) (n_iter : ℕ)
    (metric : List ℚ → List ℚ → ℚ) (nj : ℕ) (ob am : Bool) (w : World)
    (h1 : 0 < nS) (hsz : 0 < (⌊(nF : ℚ) * sample_prop⌋).toNat) :
    (bootstrap_network nS nF X none ti year sigma sample_prop n_iter metric nj
      ob am w).1 = .error .typeError := by
  obtain ⟨⟨F, hF⟩, _⟩ := bootstrap_neighbors_ok nS nF X ti year sigma
    sample_prop n_iter metric false nj am false 5 w h1 hsz
  simp only [bootstrap_network, hF]

/-- C9 witness: a completing two-feature run with labels=None. -/
theorem C9_labels_none_type_error_witness :
    (0 < 1) ∧ (0 < (⌊((2 : ℕ) : ℚ) * (1/2)⌋).toNat) ∧
    (bootstrap_network 1 2 (fun _ _ => 0) none none (fun y => y)
      (1/2) (1/2) 1 (fun _ _ => 0) 1 false false ⟨0, 0⟩).1 = .error .typeError :=
  ⟨by decide, by with_unfolding_all decide,
    C9_labels_none_type_error 1 2 (fun _ _ => 0) none (fun y => y)
      (1/2) (1/2) 1 (fun _ _ => 0) 1 false false ⟨0, 0⟩ (by decide)
      (by with_unfolding_all decide)⟩

/-- C1: evaluation at the failing input. With two items over two features,
sample_prop 1/2 (so each iteration draws one feature column and sklearn
validation passes), item 0 chronologically first and default selection mode,
the run completes and the returned matrix has diagonal entry F(0,0) = 1:
after masking, row 0 holds only its infinite diagonal entry, and np.nanargmin
(which replaces NaN by inf before argmin) returns index 0. -/
theorem C1_diagonal_self_credit_eval :
    run_is_ok (bootstrap_neighbors 2 2 (fun _ _ => 0) (some fun i => (i : ℤ))
      (fun y => y) (1/2) (1/2) 1 (fun _ _ => 0) false 1 false false 5
      ⟨0, 0⟩).1 = true ∧
    freq_entry (bootstrap_neighbors 2 2 (fun _ _ => 0) (some fun i => (i : ℤ))
      (fun y => y) (1/2) (1/2) 1 (fun _ _ => 0) false 1 false false 5
      ⟨0, 0⟩).1 0 0 = 1 := by
  with_unfolding_all decide

/-- C2: evaluation at the failing input. Two items over two features with
sample_prop 1/2, so each of the two iterations draws one feature column and
completes. Item 0 is chronologically earliest, its whole candidate set
non-comparable; the claim says its frequency row stays all zero, but the code
returns row 0 as [1, 0]: np.nanargmin still returns index 0 on the all-masked
row. -/
theorem C2_first_row_not_zero_eval :
    run_is_ok (bootstrap_neighbors 2 2 (fun i _ => (i : ℚ)) (some fun i => (i : ℤ))
      (fun y => y) (1/2) (1/2) 2 (fun _ _ => 0) false 1 false false 5
      ⟨3, 0⟩).1 = true ∧
    freq_entry (bootstrap_neighbors 2 2 (fun i _ => (i : ℚ)) (some fun i => (i : ℤ))
      (fun y => y) (1/2) (1/2) 2 (fun _ _ => 0) false 1 false false 5
      ⟨3, 0⟩).1 0 0 = 1 ∧
    freq_entry (bootstrap_neighbors 2 2 (fun i _ => (i : ℚ)) (some fun i => (i : ℤ))
      (fun y => y) (1/2) (1/2) 2 (fun _ _ => 0) false 1 false false 5
      ⟨3, 0⟩).1 0 1 = 0 := by
  with_unfolding_all decide

/-- C3: evaluation at the failing input. Two items over two features with
sample_prop 1/2 (each iteration draws one feature column and completes) and
timestamps t(0) = 1, t(1) = 0: item 1 is strictly earlier than item 0, yet the
run returns F(1,0) = 1. Row 1 is fully masked except its infinite diagonal,
and np.nanargmin of the NaN-replaced row returns index 0, crediting the
strictly later item 0. Causality is violated. -/
theorem C3_causality_violated_eval :
    ((fun r => if r = 0 then (1 : ℤ) else 0) 1 <
      (fun r => if r = 0 then (1 : ℤ) else 0) 0) ∧
    run_is_ok (bootstrap_neighbors 2 2 (fun _ _ => 0)
      (some fun r => if r = 0 then (1 : ℤ) else 0) (fun y => y)
      (1/2) (1/2) 1 (fun _ _ => 0) false 1 false false 5 ⟨0, 0⟩).1 = true ∧
    freq_entry (bootstrap_neighbors 2 2 (fun _ _ => 0)
      (some fun r => if r = 0 then (1 : ℤ) else 0) (fun y => y)
      (1/2) (1/2) 1 (fun _ _ => 0) false 1 false false 5 ⟨0, 0⟩).1 1 0 = 1 := by
  with_unfolding_all decide
